import Mathlib

/-!
Verification of the MaxMind-DB-Reader-python C extension (`maxminddb.c`).

The decoder (`from_entry_data_list`, `from_map`, `from_array`, `from_uint128`)
consumes a linked list of typed nodes (`MMDB_entry_data_list_s`) through a
pointer-to-pointer cursor and materializes Python objects.

Embedding conventions:
* The node sequence is a `List Node`; the cursor `*entry_data_list` points at
  the head of the list.  A NULL cursor is the empty list.
* `*entry_data_list = (*entry_data_list)->next` is modelled by taking the tail
  of the list; it reads the current node, so it crashes when the cursor is
  already NULL.
* Dereferencing a NULL cursor (reading `->entry_data`, `->next`, ...) is
  undefined behaviour in the C source; it is modelled by the distinguished
  outcome `Err.nullDeref`, kept distinct from Python-level exceptions.
* Python objects are modelled by `Value`.  CPython has a single float type, so
  both `PyFloat_FromDouble(double_value)` and
  `PyFloat_FromDouble(float_value)` produce a `Value.float`; the C `float`
  payload is carried as its exact double-precision widening (every IEEE-754
  binary32 value is exactly representable in binary64, so this conversion is
  the identity on the represented real).
* `PyLong` is arbitrary precision and is modelled by `Int`.
* The C `long` of the build target is 64-bit (LP64); `PyLong_FromLong` applied
  to an unsigned payload is modelled by `toLong`.
-/

/-- The compile-time representation of the `uint128` payload
(`MMDB_UINT128_IS_BYTE_ARRAY` chooses between the two). -/
inductive U128 where
  | byteArray (bs : List Nat)
  | native (v : Nat)

/-- One `MMDB_entry_data_list_s` node: its `type` tag and the payload fields
the decoder reads for that tag.  `unknown` stands for any tag outside the
recognized set; it carries the numeric tag value. -/
inductive Node where
  | map (size : Nat)
  | array (size : Nat)
  | utf8String (s : String)
  | bytes (bs : List Nat)
  | double (v : Float)
  | float (v : Float)
  | uint16 (v : Nat)
  | uint32 (v : Nat)
  | boolean (b : Bool)
  | uint64 (v : Nat)
  | uint128 (p : U128)
  | int32 (v : Int)
  | unknown (tag : Nat)

/-- The Python objects built by the decoder. -/
inductive Value where
  | dict (entries : List (String × Value))
  | list (elems : List Value)
  | str (s : String)
  | bytes (bs : List Nat)
  | float (v : Float)
  | int (v : Int)
  | bool (b : Bool)

/-- Failure outcomes of a decoding run.  `nullDeref` models the undefined
behaviour of dereferencing a NULL `MMDB_entry_data_list_s *`;
`invalidDataType t` models `PyErr_Format(MaxMindDB_error,
"Invalid data type arguments: %d", t)`; `nonStringKey` models the unspecified
union-field read `entry_data.utf8_string` on a map-key node whose tag is not
`MMDB_DATA_TYPE_UTF8_STRING` (the C code reads the field without checking). -/
inductive Err where
  | nullDeref
  | invalidDataType (tag : Nat)
  | nonStringKey
  deriving DecidableEq, Repr

/-- `PyDict_SetItem` on a dict with string keys: if the key is present its
value is replaced in place (CPython preserves insertion position), otherwise
the pair is appended. -/
def dictSet (d : List (String × Value)) (k : String) (v : Value) :
    List (String × Value) :=
  if d.any (fun p => p.1 = k) then
    d.map (fun p => if p.1 = k then (k, v) else p)
  else
    d ++ [(k, v)]

/-- The `entry_data.data_size` field as read from a node.  It is meaningful for
Map/Array (pair/element count) and Utf8String/Bytes (byte length); for the
scalar kinds the decoder never reads it and it is modelled as 0. -/
def dataSize : Node → Nat
  | Node.map size => size
  | Node.array size => size
  | Node.utf8String s => s.utf8ByteSize
  | Node.bytes bs => bs.length
  | _ => 0

/-- `PyLong_FromLong` applied to a C unsigned integer payload implicitly
converted to `long` (64-bit two's complement on the build target). -/
def toLong (n : Nat) : Int :=
  if n % 2 ^ 64 < 2 ^ 63 then Int.ofNat (n % 2 ^ 64)
  else Int.ofNat (n % 2 ^ 64) - 2 ^ 64

/-- The `snprintf(num_str, 33, "%016PRIX64 %016PRIX64", high, low)` rendering of
one `uint64_t`: exactly `k` hex digits, zero padded, most significant first. -/
def hexDigits : Nat → Nat → List Nat
  | 0, _ => []
  | k + 1, n => hexDigits k (n / 16) ++ [n % 16]

/-- `PyLong_FromString(num_str, NULL, 16)`: parse a base-16 digit string. -/
def parseHexDigits (ds : List Nat) : Nat :=
  ds.foldl (fun acc d => acc * 16 + d) 0

/-- One step of the byte-array accumulation loops in `from_uint128`:
`high = (high << 8) | bytes[i]` on `uint64_t` (the shift wraps modulo 2^64
before the bitwise or). -/
def u128Step (h b : Nat) : Nat :=
  ((h <<< 8) % 2 ^ 64) ||| b

/-- `from_uint128`: split the 128-bit payload into `high`/`low` 64-bit words
(byte-array representation: first 8 bytes big-endian give `high`, bytes 8..15
give `low`; native representation: shift right 64 / truncate to 64 bits), then
render both as 16 zero-padded hex digits and parse the 32-digit concatenation
base 16 into a `PyLong`. -/
def from_uint128 (p : U128) : Value :=
  match p with
  | U128.byteArray bs =>
    let high := (bs.take 8).foldl u128Step 0
    let low := ((bs.drop 8).take 8).foldl u128Step 0
    Value.int (Int.ofNat (parseHexDigits (hexDigits 16 high ++ hexDigits 16 low)))
  | U128.native v =>
    let high := v / 2 ^ 64 % 2 ^ 64
    let low := v % 2 ^ 64
    Value.int (Int.ofNat (parseHexDigits (hexDigits 16 high ++ hexDigits 16 low)))

mutual

/-- `from_entry_data_list`: dispatch on the current node's `type` tag.  The
cursor convention follows the C code: the function is entered with the cursor
on the node to decode and returns with the cursor on the last node of the
decoded subtree (scalars leave the cursor unmoved).  Calling it with a NULL
cursor dereferences NULL (`(*entry_data_list)->entry_data.type`). -/
def from_entry_data_list :
    (l : List Node) → Except Err (Value × {r : List Node // r.length ≤ l.length})
  | [] => Except.error Err.nullDeref
  | n :: rest =>
    match n with
    | Node.map size => from_map (Node.map size :: rest)
    | Node.array size => from_array (Node.array size :: rest)
    | Node.utf8String s =>
      Except.ok (Value.str s, ⟨Node.utf8String s :: rest, Nat.le_refl _⟩)
    | Node.bytes bs =>
      Except.ok (Value.bytes bs, ⟨Node.bytes bs :: rest, Nat.le_refl _⟩)
    | Node.double v =>
      Except.ok (Value.float v, ⟨Node.double v :: rest, Nat.le_refl _⟩)
    | Node.float v =>
      Except.ok (Value.float v, ⟨Node.float v :: rest, Nat.le_refl _⟩)
    | Node.uint16 v =>
      Except.ok (Value.int (toLong v), ⟨Node.uint16 v :: rest, Nat.le_refl _⟩)
    | Node.uint32 v =>
      Except.ok (Value.int (toLong v), ⟨Node.uint32 v :: rest, Nat.le_refl _⟩)
    | Node.boolean b =>
      Except.ok (Value.bool b, ⟨Node.boolean b :: rest, Nat.le_refl _⟩)
    | Node.uint64 v =>
      Except.ok (Value.int (Int.ofNat v), ⟨Node.uint64 v :: rest, Nat.le_refl _⟩)
    | Node.uint128 p =>
      Except.ok (from_uint128 p, ⟨Node.uint128 p :: rest, Nat.le_refl _⟩)
    | Node.int32 v =>
      Except.ok (Value.int v, ⟨Node.int32 v :: rest, Nat.le_refl _⟩)
    | Node.unknown tag => Except.error (Err.invalidDataType tag)
termination_by l => (l.length, 2)
decreasing_by
  all_goals simp_wf
  all_goals first
    | exact Prod.Lex.right _ (by omega)
    | exact Prod.Lex.left _ _ (by
        first
          | (simp only [List.length_cons] at *; omega)
          | omega)

/-- `from_map`: read `map_size` from the current node, then run the pair loop.
The C loop condition `i < map_size && entry_data_list` compares the
pointer-to-pointer `entry_data_list` (the address of the caller's cursor,
never NULL), not `*entry_data_list`, so it never stops the loop early; the
loop is modelled as running exactly `map_size` times. -/
def from_map (l : List Node) :
    Except Err (Value × {r : List Node // r.length ≤ l.length})
  := match l with
  | [] => Except.error Err.nullDeref
  | n :: rest => mapLoop (dataSize n) [] (n :: rest)
termination_by (l.length, 1)
decreasing_by
  all_goals simp_wf
  all_goals first
    | exact Prod.Lex.right _ (by omega)
    | exact Prod.Lex.left _ _ (by
        first
          | (simp only [List.length_cons] at *; omega)
          | omega)

/-- One `for` loop of `from_map`, `count` iterations remaining.  Each
iteration: advance the cursor (reads `(*entry_data_list)->next`: NULL deref if
the cursor is NULL), build the key from the current node's `utf8_string`
payload (NULL deref if the cursor is NULL), advance again, recursively decode
the value, and `PyDict_SetItem` the pair.  A failing value decode discards the
dict under construction and returns the error unchanged. -/
def mapLoop :
    (count : Nat) → (acc : List (String × Value)) → (l : List Node) →
      Except Err (Value × {r : List Node // r.length ≤ l.length})
  | 0, acc, l => Except.ok (Value.dict acc, ⟨l, Nat.le_refl _⟩)
  | count + 1, acc, l =>
    match l with
    | [] => Except.error Err.nullDeref
    | _ :: l1 =>
      match l1 with
      | [] => Except.error Err.nullDeref
      | k :: l2 =>
        match k with
        | Node.utf8String s =>
          match from_entry_data_list l2 with
          | Except.error e => Except.error e
          | Except.ok (v, ⟨r, hr⟩) =>
            match mapLoop count (dictSet acc s v) r with
            | Except.error e => Except.error e
            | Except.ok (res, ⟨r2, hr2⟩) =>
              Except.ok (res, ⟨r2, by
                simp only [List.length_cons]
                omega⟩)
        | _ => Except.error Err.nonStringKey
termination_by count acc l => (l.length, 0)
decreasing_by
  all_goals simp_wf
  all_goals first
    | exact Prod.Lex.right _ (by omega)
    | exact Prod.Lex.left _ _ (by
        first
          | (simp only [List.length_cons] at *; omega)
          | omega)

/-- `from_array`: read `size` from the current node, then run the element
loop.  The loop guard has the same always-true pointer-to-pointer test as
`from_map`. -/
def from_array (l : List Node) :
    Except Err (Value × {r : List Node // r.length ≤ l.length})
  := match l with
  | [] => Except.error Err.nullDeref
  | n :: rest => arrayLoop (dataSize n) [] (n :: rest)
termination_by (l.length, 1)
decreasing_by
  all_goals simp_wf
  all_goals first
    | exact Prod.Lex.right _ (by omega)
    | exact Prod.Lex.left _ _ (by
        first
          | (simp only [List.length_cons] at *; omega)
          | omega)

/-- One `for` loop of `from_array`, `count` iterations remaining.  Each
iteration: advance the cursor (NULL deref if the cursor is NULL), recursively
decode the element, and `PyList_SetItem` it at the next position.  A failing
element decode discards the list under construction and returns the error
unchanged. -/
def arrayLoop :
    (count : Nat) → (acc : List Value) → (l : List Node) →
      Except Err (Value × {r : List Node // r.length ≤ l.length})
  | 0, acc, l => Except.ok (Value.list acc, ⟨l, Nat.le_refl _⟩)
  | count + 1, acc, l =>
    match l with
    | [] => Except.error Err.nullDeref
    | _ :: l1 =>
      match from_entry_data_list l1 with
      | Except.error e => Except.error e
      | Except.ok (v, ⟨r, hr⟩) =>
        match arrayLoop count (acc ++ [v]) r with
        | Except.error e => Except.error e
        | Except.ok (res, ⟨r2, hr2⟩) =>
          Except.ok (res, ⟨r2, by
            simp only [List.length_cons]
            omega⟩)
termination_by count acc l => (l.length, 0)
decreasing_by
  all_goals simp_wf
  all_goals first
    | exact Prod.Lex.right _ (by omega)
    | exact Prod.Lex.left _ _ (by
        first
          | (simp only [List.length_cons] at *; omega)
          | omega)

end

/-- The decoder as seen by its callers: the cursor bookkeeping proof is
erased. -/
def materialize (l : List Node) : Except Err (Value × List Node) :=
  match from_entry_data_list l with
  | Except.error e => Except.error e
  | Except.ok (v, r) => Except.ok (v, r.val)

/-- An error result of the decoder is unaffected by the cursor-proof
erasure. -/
theorem materialize_error_iff (l : List Node) (e : Err) :
    materialize l = Except.error e ↔ from_entry_data_list l = Except.error e := by
  unfold materialize
  cases h : from_entry_data_list l with
  | error e0 => simp
  | ok p => simp

/-- A successful `materialize` result comes from a successful
`from_entry_data_list` run whose remaining cursor is no longer than the
input. -/
theorem materialize_ok_elim {l : List Node} {v : Value} {r : List Node}
    (h : materialize l = Except.ok (v, r)) :
    ∃ hb : r.length ≤ l.length,
      from_entry_data_list l = Except.ok (v, ⟨r, hb⟩) := by
  unfold materialize at h
  cases hf : from_entry_data_list l with
  | error e => rw [hf] at h; exact absurd h (by simp)
  | ok p =>
    obtain ⟨v0, r0, hr0⟩ := p
    rw [hf] at h
    simp only [Except.ok.injEq, Prod.mk.injEq] at h
    obtain ⟨hv, hrv⟩ := h
    subst hv
    subst hrv
    exact ⟨hr0, rfl⟩

/-- `toLong` is the identity on values below `2^63` (no wrap, no sign
flip). -/
theorem toLong_eq_ofNat (v : Nat) (h : v < 2 ^ 63) : toLong v = Int.ofNat v := by
  unfold toLong
  have h64 : v % 2 ^ 64 = v := Nat.mod_eq_of_lt (lt_trans h (by norm_num))
  rw [h64, if_pos h]

/-- C1: on a Map node declaring `size = 2` followed by only one key/value pair,
and on an Array node declaring `size = 2` followed by only one element, the
decoder does not produce a clean `TruncatedSequence`-style error: the loop
guard `i < map_size && entry_data_list` tests the address of the cursor (never
NULL) instead of `*entry_data_list`, so the code dereferences the NULL `next`
pointer mid-construction (undefined behaviour, modelled as `Err.nullDeref`).
No partial mapping or sequence is returned. -/
theorem truncated_map_and_array_null_deref :
    materialize [Node.map 2, Node.utf8String "a", Node.uint16 1] =
      Except.error Err.nullDeref ∧
    materialize [Node.array 2, Node.uint16 1] = Except.error Err.nullDeref := by
  constructor
  · simp [materialize, from_entry_data_list, from_map, mapLoop, dataSize, toLong]
  · simp [materialize, from_entry_data_list, from_array, arrayLoop, dataSize, toLong]

/-- C2 counterexample: a Float node carrying 1.5 and a Double node carrying
1.5 materialize to the same Python value (both branches call
`PyFloat_FromDouble`), so the two outputs are not tagged or typed
distinctly. -/
theorem float_and_double_indistinguishable :
    Except.map Prod.fst (materialize [Node.float 1.5]) =
      Except.map Prod.fst (materialize [Node.double 1.5]) := by
  simp [materialize, from_entry_data_list, Except.map]

/-- C2 (amended): both Float and Double nodes materialize through
`PyFloat_FromDouble` into the single host float type; a Float payload is
silently widened to double, so it yields a value built by the same `Value.float`
constructor as a Double payload with the same numeric value. -/
theorem float_widened_to_double (v : Float) (rest rest' : List Node) :
    materialize (Node.float v :: rest) =
      Except.ok (Value.float v, Node.float v :: rest) ∧
    materialize (Node.double v :: rest') =
      Except.ok (Value.float v, Node.double v :: rest') := by
  constructor <;> simp [materialize, from_entry_data_list]

/-- C4: Uint16 and Uint32 payloads are widened through `PyLong_FromLong`
(64-bit `long`) without overflow: for every value in `[0, 2^16)` resp.
`[0, 2^32)` the returned integer equals the unsigned payload value — never a
wrapped or negative value. -/
theorem uint16_uint32_widen_exact (v w : Nat) (hv : v < 2 ^ 16)
    (hw : w < 2 ^ 32) (rest rest' : List Node) :
    materialize (Node.uint16 v :: rest) =
      Except.ok (Value.int (Int.ofNat v), Node.uint16 v :: rest) ∧
    materialize (Node.uint32 w :: rest') =
      Except.ok (Value.int (Int.ofNat w), Node.uint32 w :: rest') := by
  have h1 : toLong v = Int.ofNat v := toLong_eq_ofNat v (lt_trans hv (by norm_num))
  have h2 : toLong w = Int.ofNat w := toLong_eq_ofNat w (lt_trans hw (by norm_num))
  constructor <;> simp [materialize, from_entry_data_list, h1, h2]

/-- C4 witness: the extreme in-range payloads 65535 and 4294967295 materialize
to exactly those integers. -/
theorem uint16_uint32_widen_exact_witness :
    materialize [Node.uint16 65535] =
      Except.ok (Value.int (Int.ofNat 65535), [Node.uint16 65535]) ∧
    materialize [Node.uint32 4294967295] =
      Except.ok (Value.int (Int.ofNat 4294967295), [Node.uint32 4294967295]) :=
  uint16_uint32_widen_exact 65535 4294967295 (by norm_num) (by norm_num) [] []

/-- C8: a node whose tag is outside the recognized set fails with the
`Invalid data type arguments: %d` error carrying the tag, and returns no
value. -/
theorem unknown_tag_fails (tag : Nat) (rest : List Node) :
    materialize (Node.unknown tag :: rest) =
      Except.error (Err.invalidDataType tag) := by
  simp [materialize, from_entry_data_list]

/-- C9: Map and Array nodes with `size = 0` materialize to an empty dict/list
and leave the cursor on the container node itself, consuming no further
nodes. -/
theorem empty_containers (rest rest' : List Node) :
    materialize (Node.map 0 :: rest) =
      Except.ok (Value.dict [], Node.map 0 :: rest) ∧
    materialize (Node.array 0 :: rest') =
      Except.ok (Value.list [], Node.array 0 :: rest') := by
  constructor
  · simp [materialize, from_entry_data_list, from_map, mapLoop, dataSize]
  · simp [materialize, from_entry_data_list, from_array, arrayLoop, dataSize]

/-- The big-endian value of a byte string, most significant byte first (the
mathematical reading of the claim's "16 raw bytes in big-endian order"). -/
def beNat (bs : List Nat) : Nat :=
  bs.foldl (fun a b => a * 256 + b) 0

theorem foldl_base_shift (b : List Nat) (x : Nat) :
    b.foldl (fun acc d => acc * 16 + d) x
      = x * 16 ^ b.length + b.foldl (fun acc d => acc * 16 + d) 0 := by
  induction b generalizing x with
  | nil => simp
  | cons d t ih =>
    simp only [List.foldl_cons, List.length_cons]
    rw [ih (x * 16 + d), ih (0 * 16 + d)]
    ring

theorem parseHexDigits_append (a b : List Nat) :
    parseHexDigits (a ++ b)
      = parseHexDigits a * 16 ^ b.length + parseHexDigits b := by
  unfold parseHexDigits
  rw [List.foldl_append, foldl_base_shift]

theorem hexDigits_length (k n : Nat) : (hexDigits k n).length = k := by
  induction k generalizing n with
  | zero => rfl
  | succ k ih => simp [hexDigits, ih]

theorem parseHexDigits_hexDigits (k n : Nat) :
    parseHexDigits (hexDigits k n) = n % 16 ^ k := by
  induction k generalizing n with
  | zero => simp [hexDigits, parseHexDigits, Nat.mod_one]
  | succ k ih =>
    rw [hexDigits, parseHexDigits_append, ih]
    have hsingle : parseHexDigits [n % 16] = n % 16 := by
      simp [parseHexDigits]
    rw [hsingle]
    have h1 : n / 16 % 16 ^ k = n % (16 * 16 ^ k) / 16 :=
      (Nat.mod_mul_right_div_self n 16 (16 ^ k)).symm
    have h2 : n % (16 * 16 ^ k) % 16 = n % 16 :=
      Nat.mod_mod_of_dvd n ⟨16 ^ k, rfl⟩
    simp only [List.length_singleton, pow_one]
    rw [pow_succ, mul_comm ((16 : Nat) ^ k) 16, h1, ← h2]
    omega

/-- Rendering `high` and `low` (both below `2^64`) as two 16-hex-digit blocks
and parsing the 32-digit concatenation base 16 yields exactly
`high * 2^64 + low`. -/
theorem parse_high_low (hi lo : Nat) (hh : hi < 2 ^ 64) (hl : lo < 2 ^ 64) :
    parseHexDigits (hexDigits 16 hi ++ hexDigits 16 lo)
      = hi * 2 ^ 64 + lo := by
  rw [parseHexDigits_append, hexDigits_length, parseHexDigits_hexDigits,
    parseHexDigits_hexDigits]
  have e : (16 : Nat) ^ 16 = 2 ^ 64 := by norm_num
  rw [e, Nat.mod_eq_of_lt hh, Nat.mod_eq_of_lt hl]

theorem u128Step_eq (a b : Nat) (hb : b < 256) (ha : a * 256 < 2 ^ 64) :
    u128Step a b = a * 256 + b := by
  unfold u128Step
  have hsh : a <<< 8 = a * 2 ^ 8 := Nat.shiftLeft_eq a 8
  have e8 : (2 : Nat) ^ 8 = 256 := by norm_num
  rw [hsh, e8, Nat.mod_eq_of_lt ha]
  have hb2 : b < 2 ^ 8 := by rw [e8]; exact hb
  have hor := Nat.mul_add_lt_is_or hb2 a
  rw [e8] at hor
  rw [mul_comm a 256]
  exact hor.symm

/-- On at most 8 bytes the `(high << 8) | bytes[i]` accumulation on `uint64_t`
never wraps and agrees with the plain base-256 accumulation. -/
theorem u128_fold_eq (bs : List Nat) (a : Nat) (hbs : ∀ b ∈ bs, b < 256)
    (hlen : bs.length ≤ 8) (ha : a < 2 ^ (64 - 8 * bs.length)) :
    bs.foldl u128Step a = bs.foldl (fun x b => x * 256 + b) a := by
  induction bs generalizing a with
  | nil => rfl
  | cons b t ih =>
    simp only [List.foldl_cons]
    have hb : b < 256 := hbs b (List.mem_cons_self b t)
    have hexp : 64 - 8 * (b :: t).length + 8 = 64 - 8 * t.length := by
      simp only [List.length_cons] at hlen ⊢
      omega
    have hnext : a * 256 + b < 2 ^ (64 - 8 * t.length) := by
      calc a * 256 + b < (a + 1) * 256 := by omega
        _ ≤ 2 ^ (64 - 8 * (b :: t).length) * 256 :=
            Nat.mul_le_mul_right 256 (Nat.succ_le_of_lt ha)
        _ = 2 ^ (64 - 8 * t.length) := by
            rw [show (256 : Nat) = 2 ^ 8 from by norm_num, ← pow_add, hexp]
    have ha64 : a * 256 < 2 ^ 64 :=
      lt_of_le_of_lt (Nat.le_add_right (a * 256) b)
        (lt_of_lt_of_le hnext (Nat.pow_le_pow_right (by norm_num) (by omega)))
    rw [u128Step_eq a b hb ha64]
    exact ih (a * 256 + b) (fun x hx => hbs x (List.mem_cons_of_mem b hx))
      (by simp only [List.length_cons] at hlen; omega) hnext

theorem foldl_be_lt (bs : List Nat) (a : Nat) (hbs : ∀ b ∈ bs, b < 256) :
    bs.foldl (fun x b => x * 256 + b) a < (a + 1) * 256 ^ bs.length := by
  induction bs generalizing a with
  | nil => simp
  | cons b t ih =>
    simp only [List.foldl_cons, List.length_cons]
    have hb : b < 256 := hbs b (List.mem_cons_self b t)
    calc t.foldl (fun x b => x * 256 + b) (a * 256 + b)
        < (a * 256 + b + 1) * 256 ^ t.length :=
          ih (a * 256 + b) (fun x hx => hbs x (List.mem_cons_of_mem b hx))
      _ ≤ (a + 1) * 256 * 256 ^ t.length :=
          Nat.mul_le_mul_right _ (by omega)
      _ = (a + 1) * 256 ^ (t.length + 1) := by ring

theorem beNat_lt (bs : List Nat) (hbs : ∀ b ∈ bs, b < 256)
    (hlen : bs.length ≤ 8) : beNat bs < 2 ^ 64 := by
  unfold beNat
  calc bs.foldl (fun x b => x * 256 + b) 0
      < (0 + 1) * 256 ^ bs.length := foldl_be_lt bs 0 hbs
    _ = 256 ^ bs.length := by ring
    _ ≤ 256 ^ 8 := Nat.pow_le_pow_right (by norm_num) hlen
    _ = 2 ^ 64 := by norm_num

/-- C3: in both input representations a Uint128 node materializes to the
arbitrary-precision integer exactly equal to `high * 2^64 + low`, with no
64-bit truncation and no floating-point intermediate: for 16 big-endian raw
bytes the result is the big-endian value of the first 8 bytes times `2^64`
plus the big-endian value of the last 8 bytes, and for a native 128-bit value
`v < 2^128` the result is exactly `v`. -/
theorem uint128_exact (bs : List Nat) (hlen : bs.length = 16)
    (hbs : ∀ b ∈ bs, b < 256) (v : Nat) (hv : v < 2 ^ 128)
    (rest rest' : List Node) :
    materialize (Node.uint128 (U128.byteArray bs) :: rest) =
      Except.ok
        (Value.int (Int.ofNat (beNat (bs.take 8) * 2 ^ 64 + beNat (bs.drop 8))),
         Node.uint128 (U128.byteArray bs) :: rest) ∧
    materialize (Node.uint128 (U128.native v) :: rest') =
      Except.ok (Value.int (Int.ofNat v),
        Node.uint128 (U128.native v) :: rest') := by
  constructor
  · have htake : (bs.take 8).length = 8 := by
      rw [List.length_take]; omega
    have hdrop : (bs.drop 8).length = 8 := by
      rw [List.length_drop]; omega
    have hdt : (bs.drop 8).take 8 = bs.drop 8 :=
      List.take_of_length_le (by rw [hdrop])
    have hbs1 : ∀ b ∈ bs.take 8, b < 256 :=
      fun b hb => hbs b (List.mem_of_mem_take hb)
    have hbs2 : ∀ b ∈ bs.drop 8, b < 256 :=
      fun b hb => hbs b (List.mem_of_mem_drop hb)
    have hhi : (bs.take 8).foldl u128Step 0 = beNat (bs.take 8) := by
      unfold beNat
      exact u128_fold_eq _ 0 hbs1 (by omega) (by rw [htake]; norm_num)
    have hlo : ((bs.drop 8).take 8).foldl u128Step 0 = beNat (bs.drop 8) := by
      rw [hdt]
      unfold beNat
      exact u128_fold_eq _ 0 hbs2 (by omega) (by rw [hdrop]; norm_num)
    have hhib : beNat (bs.take 8) < 2 ^ 64 := beNat_lt _ hbs1 (by omega)
    have hlob : beNat (bs.drop 8) < 2 ^ 64 := beNat_lt _ hbs2 (by omega)
    have key : from_uint128 (U128.byteArray bs)
        = Value.int (Int.ofNat (beNat (bs.take 8) * 2 ^ 64 + beNat (bs.drop 8))) := by
      simp only [from_uint128]
      rw [hhi, hlo, parse_high_low _ _ hhib hlob]
    simp [materialize, from_entry_data_list, key]
  · have hdvb : v / 2 ^ 64 < 2 ^ 64 := by
      apply Nat.div_lt_of_lt_mul
      calc v < 2 ^ 128 := hv
        _ = 2 ^ 64 * 2 ^ 64 := by norm_num
    have hdv : v / 2 ^ 64 % 2 ^ 64 = v / 2 ^ 64 := Nat.mod_eq_of_lt hdvb
    have hmb : v % 2 ^ 64 < 2 ^ 64 := Nat.mod_lt _ (by norm_num)
    have key : from_uint128 (U128.native v) = Value.int (Int.ofNat v) := by
      simp only [from_uint128]
      rw [hdv, parse_high_low _ _ hdvb hmb, mul_comm (v / 2 ^ 64) (2 ^ 64),
        Nat.div_add_mod]
    simp [materialize, from_entry_data_list, key]

/-- C3 witness: the bytes `0x00000000000000010000000000000002` (high = 1,
low = 2) and the native value `2^64 + 2` both materialize to exactly
`18446744073709551618`. -/
theorem uint128_exact_witness :
    materialize [Node.uint128 (U128.byteArray
        [0, 0, 0, 0, 0, 0, 0, 1, 0, 0, 0, 0, 0, 0, 0, 2])] =
      Except.ok (Value.int (Int.ofNat 18446744073709551618),
        [Node.uint128 (U128.byteArray
          [0, 0, 0, 0, 0, 0, 0, 1, 0, 0, 0, 0, 0, 0, 0, 2])]) ∧
    materialize [Node.uint128 (U128.native 18446744073709551618)] =
      Except.ok (Value.int (Int.ofNat 18446744073709551618),
        [Node.uint128 (U128.native 18446744073709551618)]) := by
  obtain ⟨h1, h2⟩ := uint128_exact
    [0, 0, 0, 0, 0, 0, 0, 1, 0, 0, 0, 0, 0, 0, 0, 2] (by decide) (by decide)
    18446744073709551618 (by norm_num) [] []
  refine ⟨?_, h2⟩
  have e : beNat (List.take 8 [0, 0, 0, 0, 0, 0, 0, 1, 0, 0, 0, 0, 0, 0, 0, 2])
        * 2 ^ 64
      + beNat (List.drop 8 [0, 0, 0, 0, 0, 0, 0, 1, 0, 0, 0, 0, 0, 0, 0, 2])
      = 18446744073709551618 := by decide
  rw [e] at h1
  exact h1

/-- C5: when the recursive decode of a value (Map) or element (Array) fails
mid-construction — at any iteration, whatever has already been accumulated —
the in-progress call aborts at once, the partially built dict/list is
discarded in full, and the same error is returned unchanged, both at the loop
level and through the `from_entry_data_list` dispatch. -/
theorem nested_error_propagates (count : Nat) (acc : List (String × Value))
    (accv : List Value) (x y : Node) (s : String) (l1 l2 : List Node) (e : Err)
    (hm : materialize l2 = Except.error e)
    (ha : materialize l1 = Except.error e) :
    mapLoop (count + 1) acc (x :: Node.utf8String s :: l2) = Except.error e ∧
    arrayLoop (count + 1) accv (y :: l1) = Except.error e ∧
    materialize (Node.map (count + 1) :: Node.utf8String s :: l2) =
      Except.error e ∧
    materialize (Node.array (count + 1) :: l1) = Except.error e := by
  rw [materialize_error_iff] at hm ha
  refine ⟨?_, ?_, ?_, ?_⟩
  · simp [mapLoop, hm]
  · simp [arrayLoop, ha]
  · simp [materialize, from_entry_data_list, from_map, dataSize, mapLoop, hm]
  · simp [materialize, from_entry_data_list, from_array, dataSize, arrayLoop, ha]

/-- C5 witness: a failing value/element decode (unrecognized tag 99) aborts
first-iteration map and array construction with that same error. -/
theorem nested_error_propagates_witness :
    mapLoop 1 [] [Node.map 1, Node.utf8String "k", Node.unknown 99] =
      Except.error (Err.invalidDataType 99) ∧
    arrayLoop 1 [] [Node.array 1, Node.unknown 99] =
      Except.error (Err.invalidDataType 99) ∧
    materialize [Node.map 1, Node.utf8String "k", Node.unknown 99] =
      Except.error (Err.invalidDataType 99) ∧
    materialize [Node.array 1, Node.unknown 99] =
      Except.error (Err.invalidDataType 99) :=
  nested_error_propagates 0 [] [] (Node.map 1) (Node.array 1) "k"
    [Node.unknown 99] [Node.unknown 99] (Err.invalidDataType 99)
    (by simp [materialize, from_entry_data_list])
    (by simp [materialize, from_entry_data_list])

/-- C6: an Array node with three well-formed element subtrees materializes to
the Sequence of exactly those three values in source pre-order, never
reordered; the cursor ends on the last node of the last element. -/
theorem array_preserves_order (A B C : Value) (l1 t1 t2 r3 : List Node)
    (x1 x2 : Node)
    (h1 : materialize l1 = Except.ok (A, x1 :: t1))
    (h2 : materialize t1 = Except.ok (B, x2 :: t2))
    (h3 : materialize t2 = Except.ok (C, r3)) :
    materialize (Node.array 3 :: l1) =
      Except.ok (Value.list [A, B, C], r3) := by
  obtain ⟨b1, f1⟩ := materialize_ok_elim h1
  obtain ⟨b2, f2⟩ := materialize_ok_elim h2
  obtain ⟨b3, f3⟩ := materialize_ok_elim h3
  simp [materialize, from_entry_data_list, from_array, dataSize, arrayLoop,
    f1, f2, f3]

/-- C6 witness: the source elements 1, 2, 3 come out as the list
`[1, 2, 3]`. -/
theorem array_preserves_order_witness :
    materialize [Node.array 3, Node.uint16 1, Node.uint16 2, Node.uint16 3] =
      Except.ok (Value.list [Value.int (Int.ofNat 1), Value.int (Int.ofNat 2),
        Value.int (Int.ofNat 3)], [Node.uint16 3]) :=
  array_preserves_order (Value.int (Int.ofNat 1)) (Value.int (Int.ofNat 2))
    (Value.int (Int.ofNat 3))
    [Node.uint16 1, Node.uint16 2, Node.uint16 3]
    [Node.uint16 2, Node.uint16 3] [Node.uint16 3] [Node.uint16 3]
    (Node.uint16 1) (Node.uint16 2)
    (by norm_num [materialize, from_entry_data_list, toLong])
    (by norm_num [materialize, from_entry_data_list, toLong])
    (by norm_num [materialize, from_entry_data_list, toLong])

/-- C7: a Map node encoding two pairs with the same key materializes, without
error, to a single-entry mapping holding the second value — last write
wins. -/
theorem map_duplicate_key_last_wins (s : String) (v1 v2 : Value)
    (l2 l4 r2 : List Node) (x1 : Node)
    (h1 : materialize l2 = Except.ok (v1, x1 :: Node.utf8String s :: l4))
    (h2 : materialize l4 = Except.ok (v2, r2)) :
    materialize (Node.map 2 :: Node.utf8String s :: l2) =
      Except.ok (Value.dict [(s, v2)], r2) := by
  obtain ⟨b1, f1⟩ := materialize_ok_elim h1
  obtain ⟨b2, f2⟩ := materialize_ok_elim h2
  simp [materialize, from_entry_data_list, from_map, dataSize, mapLoop,
    dictSet, f1, f2]

/-- C7 witness: the pairs `("k", 1)` then `("k", 2)` materialize to the
single-entry mapping `{"k": 2}`. -/
theorem map_duplicate_key_last_wins_witness :
    materialize [Node.map 2, Node.utf8String "k", Node.uint16 1,
      Node.utf8String "k", Node.uint16 2] =
      Except.ok (Value.dict [("k", Value.int (Int.ofNat 2))],
        [Node.uint16 2]) :=
  map_duplicate_key_last_wins "k" (Value.int (Int.ofNat 1))
    (Value.int (Int.ofNat 2))
    [Node.uint16 1, Node.utf8String "k", Node.uint16 2] [Node.uint16 2]
    [Node.uint16 2] (Node.uint16 1)
    (by norm_num [materialize, from_entry_data_list, toLong])
    (by norm_num [materialize, from_entry_data_list, toLong])

/-- The `Reader_obj` state: `mmdb` is the `MMDB_s *` handle, NULL after a
successful close.  The handle contents are managed by libmaxminddb and are not
modelled. -/
structure Reader where
  mmdb : Option Unit

/-- The Python exceptions raised by the reader guards. -/
inductive PyExc where
  | ioError (msg : String)
  deriving DecidableEq, Repr

/-- `Reader_get`: on a closed reader raise `IOError("Attempt to read from a
closed MaxMind DB.")` and leave the state untouched; otherwise run the
lookup/decode path (external: `MMDB_lookup_string` plus the decoder), which
never writes `mmdb_obj->mmdb`. -/
def Reader_get (lookup : String → Except PyExc (Option Value)) (r : Reader)
    (ip : String) : Except PyExc (Option Value) × Reader :=
  match r.mmdb with
  | none =>
    (Except.error (PyExc.ioError "Attempt to read from a closed MaxMind DB."), r)
  | some _ => (lookup ip, r)

/-- `Reader_metadata`: on a closed reader raise `IOError("Attempt to read from
a closed MaxMind DB.")` and leave the state untouched; otherwise decode the
metadata block (external), which never writes `mmdb_obj->mmdb`. -/
def Reader_metadata (decodeMeta : Unit → Except PyExc Value) (r : Reader) :
    Except PyExc Value × Reader :=
  match r.mmdb with
  | none =>
    (Except.error (PyExc.ioError "Attempt to read from a closed MaxMind DB."), r)
  | some _ => (decodeMeta (), r)

/-- `Reader_close`: on a closed reader raise `IOError("Attempt to close a
closed MaxMind DB.")`; otherwise `MMDB_close`, free the handle and set
`mmdb_obj->mmdb = NULL`. -/
def Reader_close (r : Reader) : Except PyExc Unit × Reader :=
  match r.mmdb with
  | none =>
    (Except.error (PyExc.ioError "Attempt to close a closed MaxMind DB."), r)
  | some _ => (Except.ok (), { mmdb := none })

/-- C10: once `close` succeeds on an open reader the handle is NULL and stays
NULL: every subsequent `get`, `metadata` or `close` raises the corresponding
`IOError` and returns the reader state unchanged (no reopening). -/
theorem closed_reader_stays_closed (r : Reader) (h : r.mmdb = some ()) :
    (Reader_close r).1 = Except.ok () ∧
    ((Reader_close r).2).mmdb = none ∧
    (∀ lookup ip, Reader_get lookup (Reader_close r).2 ip =
      (Except.error (PyExc.ioError "Attempt to read from a closed MaxMind DB."),
       (Reader_close r).2)) ∧
    (∀ decodeMeta, Reader_metadata decodeMeta (Reader_close r).2 =
      (Except.error (PyExc.ioError "Attempt to read from a closed MaxMind DB."),
       (Reader_close r).2)) ∧
    Reader_close (Reader_close r).2 =
      (Except.error (PyExc.ioError "Attempt to close a closed MaxMind DB."),
       (Reader_close r).2) := by
  simp [Reader_close, Reader_get, Reader_metadata, h]

/-- C10 witness: closing a concrete open reader succeeds, and all later calls
fail with the dedicated closed-database errors without changing state. -/
theorem closed_reader_stays_closed_witness :
    (Reader_close ⟨some ()⟩).1 = Except.ok () ∧
    ((Reader_close ⟨some ()⟩).2).mmdb = none ∧
    (∀ lookup ip, Reader_get lookup (Reader_close ⟨some ()⟩).2 ip =
      (Except.error (PyExc.ioError "Attempt to read from a closed MaxMind DB."),
       (Reader_close ⟨some ()⟩).2)) ∧
    (∀ decodeMeta, Reader_metadata decodeMeta (Reader_close ⟨some ()⟩).2 =
      (Except.error (PyExc.ioError "Attempt to read from a closed MaxMind DB."),
       (Reader_close ⟨some ()⟩).2)) ∧
    Reader_close (Reader_close ⟨some ()⟩).2 =
      (Except.error (PyExc.ioError "Attempt to close a closed MaxMind DB."),
       (Reader_close ⟨some ()⟩).2) :=
  closed_reader_stays_closed ⟨some ()⟩ rfl
